import Mathlib

/-!
Shallow embedding of the transdb repository: the server's request/state
engine (`transdb-server/src/lib.rs`), the client's request contract
(`transdb-client/src/lib.rs`), and the history checker
(`transdb-stress-tests/src/history.rs`).  Machine integers (`u64`, `usize`)
are modelled as `Nat`; byte strings as `List Nat`; `Instant` as `Nat`;
hash maps as association lists whose `insert` replaces the binding.
-/

namespace TransDb

/-- `transdb_common::MAX_KEY_SIZE` (bytes). -/
def MAX_KEY_SIZE : Nat := 1024

/-- `transdb_common::MAX_VALUE_SIZE` (bytes). -/
def MAX_VALUE_SIZE : Nat := 4194304

/-- `config::TOMBSTONE_TTL_SECS`. -/
def TOMBSTONE_TTL_SECS : Nat := 3600

/-- Byte string (`Bytes` / `Vec<u8>` in the source). -/
abbrev ByteStr := List Nat

/-- `NodeRole` from `transdb-server/src/lib.rs`. -/
inductive NodeRole where
  | primary
  | replica
deriving DecidableEq, Repr

/-- `Entry` from `transdb-server/src/lib.rs`: `value = none` is a tombstone. -/
structure Entry where
  value : Option ByteStr
  version : Nat
  expiresAt : Option Nat
deriving DecidableEq, Repr

/-- `Entry::is_expired`: true iff the entry has a TTL and `now` is at or past it. -/
def Entry.is_expired (e : Entry) (now : Nat) : Bool :=
  match e.expiresAt with
  | none => false
  | some ts => now ≥ ts

/-- `HttpMethod` from `transdb-server/src/lib.rs`. -/
inductive HttpMethod where
  | put
  | delete
deriving DecidableEq, Repr

/-- `IdempotencyRecord` from `transdb-server/src/lib.rs`
(`created_at : Instant` modelled as a `Nat`). -/
structure IdempotencyRecord where
  method : HttpMethod
  keyPath : String
  statusCode : Nat
  etag : Option Nat
  createdAt : Nat
deriving DecidableEq, Repr

/-- `DbState` from `transdb-server/src/lib.rs`; the two `HashMap`s are
modelled as association lists. -/
structure DbState where
  store : List (String × Entry)
  idempotencyCache : List (String × IdempotencyRecord)
  nextVersion : Nat
deriving DecidableEq, Repr

/-- `HashMap::get`. -/
def alistGet {α : Type} (l : List (String × α)) (k : String) : Option α :=
  (l.find? (fun p => p.1 == k)).map (fun p => p.2)

/-- `HashMap::insert` (replaces any previous binding of `k`). -/
def alistInsert {α : Type} (l : List (String × α)) (k : String) (v : α) :
    List (String × α) :=
  (k, v) :: l.filter (fun p => p.1 != k)

/-- The state at process start (`AppState::new`). -/
def initDb : DbState := ⟨[], [], 0⟩

/-- Body of a modelled HTTP response. -/
inductive RespBody where
  | empty
  | bytes (b : ByteStr)
  | errorJson (msg : String)
deriving DecidableEq, Repr

/-- A modelled HTTP response: status code, decoded `ETag` header (the
server always formats it as the quoted decimal of this number), the
`X-Expired: true` header flag, and the body. -/
structure Response where
  status : Nat
  etag : Option Nat
  xExpired : Bool
  body : RespBody
deriving DecidableEq, Repr

/-- `error_response(status, message)`. -/
def error_response (status : Nat) (message : String) : Response :=
  ⟨status, none, false, .errorJson message⟩

/-- Request headers the handlers read: `X-TTL` and `Idempotency-Key`
(`none` = header absent or not valid UTF-8, matching `to_str().ok()`
chained with `get`). -/
structure ReqHeaders where
  xTtl : Option String
  idempotencyKey : Option String
deriving DecidableEq, Repr

/-- Rust `str::parse::<u64>`: optional leading `+`, at least one ASCII
digit, nothing else, and the value must fit in 64 bits (implemented over
the character list so it evaluates by kernel reduction). -/
def parseU64 (s : String) : Option Nat :=
  let cs := s.data
  let cs2 := match cs with
    | [] => ([] : List Char)
    | c :: rest => if c.toNat == 43 then rest else cs
  if cs2.length > 0 && cs2.all Char.isDigit then
    let n := cs2.foldl (fun a c => a * 10 + (c.toNat - 48)) 0
    if n < 2 ^ 64 then some n else none
  else none

/-- `verify_and_build_cached_put`. -/
def verify_and_build_cached_put (record : IdempotencyRecord) (key : String) :
    Response :=
  if record.method ≠ HttpMethod.put ∨ record.keyPath ≠ key then
    error_response 422
      "Idempotency-Key was already used for a different method or key path"
  else
    ⟨200, record.etag, false, .empty⟩

/-- `verify_and_build_cached_delete`; `none` models the panic of
`record.etag.unwrap()` when the record has no `ETag`. -/
def verify_and_build_cached_delete (record : IdempotencyRecord) (key : String) :
    Option Response :=
  if record.method ≠ HttpMethod.delete ∨ record.keyPath ≠ key then
    some (error_response 422
      "Idempotency-Key was already used for a different method or key path")
  else
    record.etag.map (fun e => ⟨200, some e, false, .empty⟩)

/-- `handle_get` (read-only, so it returns just the response).  `now` is
`clock.unix_now_secs()`.  The lock-timeout branch is a concurrency effect
and is not modelled. -/
def handle_get (role : NodeRole) (key : String) (db : DbState) (now : Nat) :
    Response :=
  if role = NodeRole.replica then
    error_response 405 "Replica does not accept key operations"
  else if key.utf8ByteSize > MAX_KEY_SIZE then
    error_response 400
      ("Key exceeds maximum size of " ++ toString MAX_KEY_SIZE ++ " bytes")
  else
    match alistGet db.store key with
    | none => error_response 404 ("Key not found: " ++ key)
    | some entry =>
      match entry.value with
      | none => error_response 404 ("Key not found: " ++ key)
      | some v => ⟨200, some entry.version, entry.is_expired now, .bytes v⟩

/-- The tail of `handle_put` after the preamble's size and `X-TTL`
checks, taking the parsed `expires_at`: idempotency lookup, then the
write (`version` is the incremented counter). -/
def handle_put_afterTtl (key : String) (headers : ReqHeaders)
    (body : ByteStr) (db : DbState) (instantNow : Nat)
    (expiresAt : Option Nat) : Response × DbState :=
  match headers.idempotencyKey with
  | none => (error_response 400 "Idempotency-Key header is required", db)
  | some tok =>
    match alistGet db.idempotencyCache tok with
    | some record => (verify_and_build_cached_put record key, db)
    | none =>
      (⟨200, some (db.nextVersion + 1), false, .empty⟩,
       { store := alistInsert db.store key
           ⟨some body, db.nextVersion + 1, expiresAt⟩
         idempotencyCache := alistInsert db.idempotencyCache tok
           ⟨HttpMethod.put, key, 200, some (db.nextVersion + 1), instantNow⟩
         nextVersion := db.nextVersion + 1 })

/-- `handle_put`.  `instantNow` models `Instant::now()` for
`created_at`. -/
def handle_put (role : NodeRole) (key : String) (headers : ReqHeaders)
    (body : ByteStr) (db : DbState) (instantNow : Nat) : Response × DbState :=
  if role = NodeRole.replica then
    (error_response 405 "Replica does not accept key operations", db)
  else if key.utf8ByteSize > MAX_KEY_SIZE then
    (error_response 400
      ("Key exceeds maximum size of " ++ toString MAX_KEY_SIZE ++ " bytes"), db)
  else if body.length > MAX_VALUE_SIZE then
    (error_response 400
      ("Value exceeds maximum size of " ++ toString MAX_VALUE_SIZE ++ " bytes"),
      db)
  else
    match headers.xTtl with
    | some s =>
      match parseU64 s with
      | none => (error_response 400 "X-TTL must be a non-negative integer", db)
      | some ts => handle_put_afterTtl key headers body db instantNow (some ts)
    | none => handle_put_afterTtl key headers body db instantNow none

/-- `handle_delete`.  Returns `none` when the handler would panic
(the `unwrap` inside `verify_and_build_cached_delete`). -/
def handle_delete (role : NodeRole) (key : String) (headers : ReqHeaders)
    (db : DbState) (unixNow instantNow : Nat) : Option (Response × DbState) :=
  if role = NodeRole.replica then
    some (error_response 405 "Replica does not accept key operations", db)
  else if key.utf8ByteSize > MAX_KEY_SIZE then
    some (error_response 400
      ("Key exceeds maximum size of " ++ toString MAX_KEY_SIZE ++ " bytes"), db)
  else
    match headers.idempotencyKey with
    | none => some (error_response 400 "Idempotency-Key header is required", db)
    | some tok =>
      match alistGet db.idempotencyCache tok with
      | some record =>
        (verify_and_build_cached_delete record key).map (fun r => (r, db))
      | none =>
        match alistGet db.store key with
        | none => some (⟨204, none, false, .empty⟩, db)
        | some entry =>
          match entry.value with
          | none => some (⟨204, none, false, .empty⟩, db)
          | some _ =>
            some (⟨200, some (db.nextVersion + 1), false, .empty⟩,
              { store := alistInsert db.store key
                  ⟨none, db.nextVersion + 1, some (unixNow + TOMBSTONE_TTL_SECS)⟩
                idempotencyCache := alistInsert db.idempotencyCache tok
                  ⟨HttpMethod.delete, key, 200, some (db.nextVersion + 1),
                    instantNow⟩
                nextVersion := db.nextVersion + 1 })

/-- One request to the server, carrying the clock readings the handler
would make. -/
inductive Request where
  | get (key : String) (unixNow : Nat)
  | put (key : String) (headers : ReqHeaders) (body : ByteStr) (instantNow : Nat)
  | del (key : String) (headers : ReqHeaders) (unixNow instantNow : Nat)

/-- Serialized execution of one request under the write lock.  `none`
models a handler panic. -/
def step (role : NodeRole) (db : DbState) : Request → Option (Response × DbState)
  | .get key unixNow => some (handle_get role key db unixNow, db)
  | .put key headers body instantNow =>
      some (handle_put role key headers body db instantNow)
  | .del key headers unixNow instantNow =>
      handle_delete role key headers db unixNow instantNow

/-- The version assigned by a step, as a (possibly empty) event list: a
step is a successful mutation exactly when it advanced `next_version`,
and the assigned version is the `ETag` it responded with. -/
def mutEvents (dbBefore : DbState) (resp : Response) (dbAfter : DbState) :
    List Nat :=
  if dbAfter.nextVersion = dbBefore.nextVersion then [] else resp.etag.toList

/-- Run a list of requests, collecting the versions assigned by the
successful mutations, in order.  `none` models a handler panic somewhere
in the run. -/
def execV (role : NodeRole) (db : DbState) :
    List Request → Option (DbState × List Nat)
  | [] => some (db, [])
  | req :: rest =>
    match step role db req with
    | none => none
    | some (resp, db1) =>
      match execV role db1 rest with
      | none => none
      | some (db2, vs) => some (db2, mutEvents db resp db1 ++ vs)

/-- Every record in the idempotency cache was captured as a `200` with an
`ETag` (the invariant behind the `unwrap` in
`verify_and_build_cached_delete`). -/
def cacheOK (db : DbState) : Prop :=
  ∀ p ∈ db.idempotencyCache, p.2.statusCode = 200 ∧ p.2.etag.isSome = true

instance (db : DbState) : Decidable (cacheOK db) := by
  unfold cacheOK; infer_instance

end TransDb

namespace Checker

open TransDb (ByteStr)

/-- `OpKind` from `transdb-stress-tests/src/history.rs`. -/
inductive OpKind where
  | put
  | get
  | getAllowingExpired
  | delete
deriving DecidableEq, Repr

/-- `OpOutcome` from `history.rs`. -/
inductive OpOutcome where
  | putOk (version : Nat) (value : ByteStr)
  | getOk (version : Nat) (value : ByteStr)
  | notFound
  | deleteOk (version : Nat)
  | error
deriving DecidableEq, Repr

/-- `OpRecord` from `history.rs` (`Instant` modelled as `Nat`). -/
structure OpRecord where
  clientStartTs : Nat
  clientAckTs : Nat
  key : String
  kind : OpKind
  outcome : OpOutcome
deriving DecidableEq, Repr

/-- `ViolationKind` from `history.rs`.  Note `staleDataReturned` carries an
`Option Nat`, exactly as the source does. -/
inductive ViolationKind where
  | versionNotFound (actual : ByteStr)
  | readBeforeWriteStart (putStartTs getAckTs : Nat)
  | valueMismatch (expected actual : ByteStr)
  | staleDataReturned (latestKnownVersion : Option Nat)
deriving DecidableEq, Repr

/-- `Violation` from `history.rs`. -/
structure Violation where
  key : String
  version : Nat
  kind : ViolationKind
deriving DecidableEq, Repr

/-- `PutEntry` from `history.rs`. -/
structure PutEntry where
  value : ByteStr
  putStartTs : Nat
  putAckTs : Nat
deriving DecidableEq, Repr

/-- `DeleteEntry` from `history.rs`. -/
structure DeleteEntry where
  delStartTs : Nat
  delAckTs : Nat
deriving DecidableEq, Repr

/-- The `(key, version)` bucket of `build_write_index`: every `PutOk` for
that pair, in history order (the bucket is absent iff this list is
empty). -/
def writeIndexGet (records : List OpRecord) (key : String) (version : Nat) :
    List PutEntry :=
  records.filterMap fun r =>
    match r.outcome with
    | .putOk v val =>
      if r.key == key && v == version then
        some ⟨val, r.clientStartTs, r.clientAckTs⟩
      else none
    | _ => none

/-- The `key` bucket of `build_delete_index`: every `DeleteOk` on the key,
in history order. -/
def deleteIndexGet (records : List OpRecord) (key : String) :
    List DeleteEntry :=
  records.filterMap fun r =>
    match r.outcome with
    | .deleteOk _ =>
      if r.key == key then some ⟨r.clientStartTs, r.clientAckTs⟩ else none
    | _ => none

/-- `superseding_delete`: some DELETE on the key started at or after the
PUT's ack and was acked before the GET started. -/
def superseding_delete (records : List OpRecord) (key : String)
    (putAckTs getStartTs : Nat) : Bool :=
  (deleteIndexGet records key).any fun e =>
    decide (e.delStartTs ≥ putAckTs) && decide (e.delAckTs < getStartTs)

/-- `latest_known_version`: the highest version above `returnedVersion`
some PUT on the key produced with an ack before `getStartTs`. -/
def latest_known_version (records : List OpRecord) (key : String)
    (returnedVersion : Nat) (getStartTs : Nat) : Option Nat :=
  (records.filterMap fun r =>
    match r.outcome with
    | .putOk v _ =>
      if r.key == key && decide (returnedVersion < v)
          && decide (r.clientAckTs < getStartTs) then some v
      else none
    | _ => none).max?

/-- `Iterator::max_by_key` on `put_start_ts` (ties: the last maximal
element wins, as in Rust). -/
def maxByPutStart (l : List PutEntry) : Option PutEntry :=
  l.foldl
    (fun acc e =>
      match acc with
      | none => some e
      | some m => if m.putStartTs ≤ e.putStartTs then some e else some m)
    none

/-- `Iterator::min_by_key` on `put_start_ts` over the nonempty list
`e0 :: es` (ties: the first minimal element wins, as in Rust). -/
def minByPutStart (e0 : PutEntry) (es : List PutEntry) : PutEntry :=
  es.foldl (fun m e => if e.putStartTs < m.putStartTs then e else m) e0

/-- `classify_get` from `history.rs`. -/
def classify_get (records : List OpRecord) (key : String) (version : Nat)
    (value : ByteStr) (getStart getAck : Nat) : Option ViolationKind :=
  match writeIndexGet records key version with
  | [] => some (.versionNotFound value)
  | e0 :: es =>
    match maxByPutStart ((e0 :: es).filter fun e =>
        decide (e.putAckTs ≤ getStart)) with
    | some entry =>
      if entry.value ≠ value then
        some (.valueMismatch entry.value value)
      else if superseding_delete records key entry.putAckTs getStart then
        some (.staleDataReturned none)
      else
        match latest_known_version records key version getStart with
        | some latest => some (.staleDataReturned (some latest))
        | none => none
    | none =>
      let earliest := minByPutStart e0 es
      if earliest.putStartTs > getAck then
        some (.readBeforeWriteStart earliest.putStartTs getAck)
      else none

/-- `History::check_correctness`. -/
def check_correctness (records : List OpRecord) : List Violation :=
  records.filterMap fun r =>
    match r.outcome with
    | .getOk version value =>
      (classify_get records r.key version value r.clientStartTs
          r.clientAckTs).map
        fun kind => ⟨r.key, version, kind⟩
    | _ => none

end Checker

namespace Client

open TransDb (ByteStr MAX_KEY_SIZE MAX_VALUE_SIZE parseU64)

/-- `TransDbError` from `transdb-common` (as used by the client). -/
inductive TransDbError where
  | keyNotFound (key : String)
  | networkError (details : String)
  | httpError (status : Nat) (message : String)
  | keyTooLarge (n : Nat)
  | valueTooLarge (n : Nat)
  | missingETag
deriving DecidableEq, Repr

/-- The HTTP response as the client sees it: status, raw `ETag` and
`X-Expired` header values, body bytes, and the body parsed as the JSON
error envelope when that parse succeeds. -/
structure HttpResp where
  status : Nat
  etagHeader : Option String
  xExpiredHeader : Option String
  bodyBytes : ByteStr
  bodyErrorMsg : Option String
deriving DecidableEq, Repr

/-- `reqwest::StatusCode::is_success` (2xx). -/
def is2xx (s : Nat) : Bool := decide (200 ≤ s) && decide (s < 300)

/-- `str::trim_matches('"')`: strip all leading and trailing double
quotes. -/
def trimQuotes (s : String) : String :=
  let q := Char.ofNat 34
  let l := s.toList.dropWhile (fun c => c == q)
  ⟨(l.reverse.dropWhile (fun c => c == q)).reverse⟩

/-- `parse_etag` from `transdb-client/src/lib.rs`. -/
def parse_etag (resp : HttpResp) : Option Nat :=
  resp.etagHeader.bind fun s => parseU64 (trimQuotes s)

/-- `parse_error_response` from `transdb-client/src/lib.rs`. -/
def parse_error_response (status : Nat) (key : String) (resp : HttpResp) :
    TransDbError :=
  if status == 404 then .keyNotFound key
  else
    .httpError status
      (resp.bodyErrorMsg.getD ("Server returned status: " ++ toString status))

/-- `Client::delete` from `transdb-client/src/lib.rs`, as a function of the
key and of the HTTP response the server sent back (the network exchange
itself is I/O and not modelled; a transport failure would surface as
`networkError` before this logic runs).  Faithful to the source: after the
pre-flight size check and the error branch it returns plain `Ok(())`,
reading neither the status (200 vs 204) nor the `ETag` header. -/
def clientDelete (key : String) (resp : HttpResp) : Except TransDbError Unit :=
  if key.utf8ByteSize > MAX_KEY_SIZE then
    .error (.keyTooLarge MAX_KEY_SIZE)
  else if !(is2xx resp.status) then
    .error (parse_error_response resp.status key resp)
  else
    .ok ()

/-- Modelled from the spec: the `delete` the specification (and this
repository's own unit tests and stress-test worker) describe — on `204`
return `none`, on `200` parse the `ETag` and return `some version`,
`missingETag` when a `200` lacks a parseable `ETag`. -/
def specDelete (key : String) (resp : HttpResp) :
    Except TransDbError (Option Nat) :=
  if key.utf8ByteSize > MAX_KEY_SIZE then
    .error (.keyTooLarge MAX_KEY_SIZE)
  else if !(is2xx resp.status) then
    .error (parse_error_response resp.status key resp)
  else if resp.status == 204 then
    .ok none
  else
    match parse_etag resp with
    | some v => .ok (some v)
    | none => .error .missingETag

end Client

/-! ## Lemmas -/

namespace TransDb

theorem alistGet_insert_self {α : Type} (l : List (String × α)) (k : String) (v : α) :
    alistGet (alistInsert l k v) k = some v := by
  simp [alistGet, alistInsert]

theorem alistGet_mem {α : Type} {l : List (String × α)} {k : String} {v : α}
    (h : alistGet l k = some v) : ∃ p ∈ l, p.2 = v := by
  unfold alistGet at h
  cases hf : l.find? (fun p => p.1 == k) with
  | none => rw [hf] at h; simp at h
  | some p =>
    rw [hf] at h; simp at h
    exact ⟨p, List.mem_of_find?_eq_some hf, h⟩

theorem handle_put_version (role : NodeRole) (key : String) (headers : ReqHeaders)
    (body : ByteStr) (db : DbState) (instantNow : Nat) (resp : Response) (db' : DbState)
    (h : handle_put role key headers body db instantNow = (resp, db')) :
    db' = db ∨
      (db'.nextVersion = db.nextVersion + 1 ∧ resp.status = 200 ∧
        resp.etag = some (db.nextVersion + 1)) := by
  unfold handle_put handle_put_afterTtl at h
  repeat' split at h
  all_goals (rw [Prod.mk.injEq] at h; obtain ⟨h1, h2⟩ := h; subst h1; subst h2)
  all_goals first
    | exact Or.inl rfl
    | exact Or.inr ⟨rfl, rfl, rfl⟩

theorem handle_delete_version (role : NodeRole) (key : String) (headers : ReqHeaders)
    (db : DbState) (unixNow instantNow : Nat) (resp : Response) (db' : DbState)
    (h : handle_delete role key headers db unixNow instantNow = some (resp, db')) :
    db' = db ∨
      (db'.nextVersion = db.nextVersion + 1 ∧ resp.status = 200 ∧
        resp.etag = some (db.nextVersion + 1)) := by
  unfold handle_delete at h
  repeat' split at h
  all_goals
    simp only [Option.map_eq_some', Option.some.injEq, Prod.mk.injEq] at h
  all_goals
    first
      | (obtain ⟨h1, h2⟩ := h; subst h1; subst h2;
         first
           | exact Or.inl rfl
           | exact Or.inr ⟨rfl, rfl, rfl⟩)
      | (obtain ⟨r, hr, h1, h2⟩ := h; subst h1; subst h2; exact Or.inl rfl)

theorem step_version (role : NodeRole) (db : DbState) (req : Request) (resp : Response)
    (db' : DbState) (h : step role db req = some (resp, db')) :
    db'.nextVersion = db.nextVersion ∨
      (db'.nextVersion = db.nextVersion + 1 ∧ resp.status = 200 ∧
        resp.etag = some (db.nextVersion + 1)) := by
  cases req with
  | get key unixNow =>
    simp only [step, Option.some.injEq, Prod.mk.injEq] at h
    exact Or.inl (by rw [← h.2])
  | put key headers body instantNow =>
    simp only [step, Option.some.injEq] at h
    rcases handle_put_version role key headers body db instantNow resp db' h with h1 | h2
    · exact Or.inl (by rw [h1])
    · exact Or.inr h2
  | del key headers unixNow instantNow =>
    simp only [step] at h
    rcases handle_delete_version role key headers db unixNow instantNow resp db' h with h1 | h2
    · exact Or.inl (by rw [h1])
    · exact Or.inr h2

theorem range'_cons_eq (s n : Nat) : List.range' s (n + 1) = s :: List.range' (s + 1) n := rfl

theorem range'_pairwise_lt (s n : Nat) : (List.range' s n).Pairwise (· < ·) := by
  induction n generalizing s with
  | zero => simp
  | succ m ih =>
    rw [range'_cons_eq]
    refine List.Pairwise.cons ?_ (ih (s + 1))
    intro b hb
    have := (List.mem_range'_1.mp hb).1
    omega

theorem execV_version (role : NodeRole) (reqs : List Request) :
    ∀ (db db' : DbState) (vs : List Nat),
      execV role db reqs = some (db', vs) →
      db'.nextVersion = db.nextVersion + vs.length ∧
        vs = List.range' (db.nextVersion + 1) vs.length := by
  induction reqs with
  | nil =>
    intro db db' vs h
    simp only [execV, Option.some.injEq, Prod.mk.injEq] at h
    obtain ⟨h1, h2⟩ := h
    subst h1; subst h2
    simp
  | cons req rest ih =>
    intro db db' vs h
    simp only [execV] at h
    cases hstep : step role db req with
    | none => rw [hstep] at h; simp at h
    | some p =>
      obtain ⟨resp, db1⟩ := p
      rw [hstep] at h
      dsimp only at h
      cases hrec : execV role db1 rest with
      | none => rw [hrec] at h; simp at h
      | some q =>
        obtain ⟨db2, vs1⟩ := q
        rw [hrec] at h
        simp only [Option.some.injEq, Prod.mk.injEq] at h
        obtain ⟨h1, h2⟩ := h
        subst h1; subst h2
        obtain ⟨ihA, ihB⟩ := ih db1 db2 vs1 hrec
        rcases step_version role db req resp db1 hstep with hsame | ⟨hinc, _, hetag⟩
        · rw [mutEvents, if_pos hsame]
          simp only [List.nil_append]
          rw [hsame] at ihA ihB
          exact ⟨ihA, ihB⟩
        · rw [mutEvents, if_neg (by omega)]
          rw [hetag]
          simp only [Option.toList_some, List.singleton_append, List.length_cons]
          constructor
          · omega
          · rw [range'_cons_eq]
            rw [ihB]
            rw [hinc]
            simp [List.length_range']

end TransDb

namespace TransDb

theorem cacheOK_insert (l : List (String × IdempotencyRecord)) (k : String)
    (r : IdempotencyRecord)
    (hl : ∀ p ∈ l, p.2.statusCode = 200 ∧ p.2.etag.isSome = true)
    (hr : r.statusCode = 200 ∧ r.etag.isSome = true) :
    ∀ p ∈ alistInsert l k r, p.2.statusCode = 200 ∧ p.2.etag.isSome = true := by
  intro p hp
  rcases List.mem_cons.mp hp with h | h
  · subst h; exact hr
  · exact hl p (List.mem_of_mem_filter h)

theorem handle_put_cacheOK (role : NodeRole) (key : String) (headers : ReqHeaders)
    (body : ByteStr) (db : DbState) (instantNow : Nat) (resp : Response) (db' : DbState)
    (h : handle_put role key headers body db instantNow = (resp, db'))
    (hdb : cacheOK db) : cacheOK db' := by
  unfold handle_put handle_put_afterTtl at h
  repeat' split at h
  all_goals (rw [Prod.mk.injEq] at h; obtain ⟨h1, h2⟩ := h; subst h1; subst h2)
  all_goals first
    | exact hdb
    | exact cacheOK_insert db.idempotencyCache _ _ hdb ⟨rfl, rfl⟩

theorem handle_delete_cacheOK (role : NodeRole) (key : String) (headers : ReqHeaders)
    (db : DbState) (unixNow instantNow : Nat) (resp : Response) (db' : DbState)
    (h : handle_delete role key headers db unixNow instantNow = some (resp, db'))
    (hdb : cacheOK db) : cacheOK db' := by
  unfold handle_delete at h
  repeat' split at h
  all_goals
    simp only [Option.map_eq_some', Option.some.injEq, Prod.mk.injEq] at h
  all_goals
    first
      | (obtain ⟨h1, h2⟩ := h; subst h1; subst h2;
         first
           | exact hdb
           | exact cacheOK_insert db.idempotencyCache _ _ hdb ⟨rfl, rfl⟩)
      | (obtain ⟨r, hr, h1, h2⟩ := h; subst h1; subst h2; exact hdb)

theorem verify_delete_ne_none (record : IdempotencyRecord) (key : String)
    (h : record.etag.isSome = true) :
    verify_and_build_cached_delete record key ≠ none := by
  unfold verify_and_build_cached_delete
  split
  · simp
  · obtain ⟨v, hv⟩ := Option.isSome_iff_exists.mp h
    rw [hv]
    simp

theorem handle_delete_ne_none (role : NodeRole) (key : String) (headers : ReqHeaders)
    (db : DbState) (unixNow instantNow : Nat) (hdb : cacheOK db) :
    handle_delete role key headers db unixNow instantNow ≠ none := by
  unfold handle_delete
  repeat' split
  all_goals simp only [ne_eq, Option.map_eq_none']
  all_goals try exact fun hcon => Option.noConfusion hcon
  next tok record heq =>
    obtain ⟨p, hp, hpv⟩ := alistGet_mem heq
    have := (hdb p hp).2
    rw [hpv] at this
    exact verify_delete_ne_none record key this

theorem step_cacheOK (role : NodeRole) (db : DbState) (req : Request) (resp : Response)
    (db' : DbState) (h : step role db req = some (resp, db')) (hdb : cacheOK db) :
    cacheOK db' := by
  cases req with
  | get key unixNow =>
    simp only [step, Option.some.injEq, Prod.mk.injEq] at h
    rw [← h.2]; exact hdb
  | put key headers body instantNow =>
    simp only [step, Option.some.injEq] at h
    exact handle_put_cacheOK role key headers body db instantNow resp db' h hdb
  | del key headers unixNow instantNow =>
    simp only [step] at h
    exact handle_delete_cacheOK role key headers db unixNow instantNow resp db' h hdb

theorem execV_cacheOK (role : NodeRole) (reqs : List Request) :
    ∀ (db db' : DbState) (vs : List Nat),
      execV role db reqs = some (db', vs) → cacheOK db → cacheOK db' := by
  induction reqs with
  | nil =>
    intro db db' vs h hdb
    simp only [execV, Option.some.injEq, Prod.mk.injEq] at h
    rw [← h.1]; exact hdb
  | cons req rest ih =>
    intro db db' vs h hdb
    simp only [execV] at h
    cases hstep : step role db req with
    | none => rw [hstep] at h; simp at h
    | some p =>
      obtain ⟨resp, db1⟩ := p
      rw [hstep] at h
      dsimp only at h
      cases hrec : execV role db1 rest with
      | none => rw [hrec] at h; simp at h
      | some q =>
        obtain ⟨db2, vs1⟩ := q
        rw [hrec] at h
        simp only [Option.some.injEq, Prod.mk.injEq] at h
        rw [← h.1]
        exact ih db1 db2 vs1 hrec (step_cacheOK role db req resp db1 hstep hdb)

end TransDb

namespace TransDb

theorem handle_put_fresh_success (role : NodeRole) (key : String) (headers : ReqHeaders)
    (body : ByteStr) (db : DbState) (instantNow : Nat) (resp : Response) (db' : DbState)
    (T : String)
    (htok : headers.idempotencyKey = some T)
    (hfresh : alistGet db.idempotencyCache T = none)
    (h : handle_put role key headers body db instantNow = (resp, db'))
    (hok : resp.status = 200) :
    ¬ key.utf8ByteSize > MAX_KEY_SIZE ∧
    resp = ⟨200, some (db.nextVersion + 1), false, RespBody.empty⟩ ∧
    db'.idempotencyCache = alistInsert db.idempotencyCache T
      ⟨HttpMethod.put, key, 200, some (db.nextVersion + 1), instantNow⟩ := by
  unfold handle_put handle_put_afterTtl at h
  rw [htok] at h
  dsimp only at h
  rw [hfresh] at h
  dsimp only at h
  repeat' split at h
  all_goals (rw [Prod.mk.injEq] at h; obtain ⟨h1, h2⟩ := h; subst h1; subst h2)
  all_goals first
    | exact ⟨by assumption, rfl, rfl⟩
    | (exfalso; simp [error_response] at hok)

end TransDb

namespace TransDb

theorem put_replay_general (db : DbState) (k : String) (rec : IdempotencyRecord)
    (T : String) (hs : ReqHeaders) (b2 : ByteStr) (t2 : Nat)
    (hrec : alistGet db.idempotencyCache T = some rec)
    (hm : rec.method = HttpMethod.put) (hk : rec.keyPath = k)
    (htok2 : hs.idempotencyKey = some T)
    (hksize : ¬ k.utf8ByteSize > MAX_KEY_SIZE)
    (hb2 : ¬ b2.length > MAX_VALUE_SIZE)
    (httl2 : ∀ s, hs.xTtl = some s → (parseU64 s).isSome = true) :
    handle_put NodeRole.primary k hs b2 db t2 =
      (⟨200, rec.etag, false, RespBody.empty⟩, db) := by
  unfold handle_put handle_put_afterTtl
  rw [if_neg (by simp), if_neg hksize, if_neg hb2, htok2]
  dsimp only
  rw [hrec]
  cases hx : hs.xTtl with
  | none =>
    dsimp only
    unfold verify_and_build_cached_put
    rw [if_neg (by simp [hm, hk])]
  | some s =>
    obtain ⟨ts, hts⟩ := Option.isSome_iff_exists.mp (httl2 s hx)
    dsimp only
    rw [hts]
    dsimp only
    unfold verify_and_build_cached_put
    rw [if_neg (by simp [hm, hk])]

end TransDb

namespace Checker

theorem minByPutStart_mem (e0 : PutEntry) (es : List PutEntry) :
    minByPutStart e0 es ∈ e0 :: es := by
  induction es generalizing e0 with
  | nil => simp [minByPutStart]
  | cons e es ih =>
    have step : minByPutStart e0 (e :: es) =
        minByPutStart (if e.putStartTs < e0.putStartTs then e else e0) es := by
      simp [minByPutStart]
    rw [step]
    rcases List.mem_cons.mp (ih (if e.putStartTs < e0.putStartTs then e else e0)) with h | h
    · rw [h]
      split
      · simp
      · simp
    · simp only [List.mem_cons]
      right; right; exact h

theorem classify_get_overlap (records : List Checker.OpRecord) (key : String)
    (version : Nat) (value : TransDb.ByteStr) (getStart getAck : Nat)
    (e0 : PutEntry) (es : List PutEntry)
    (hw : writeIndexGet records key version = e0 :: es)
    (hov : ∀ e ∈ e0 :: es, getStart < e.putAckTs ∧ e.putStartTs ≤ getAck) :
    classify_get records key version value getStart getAck = none := by
  unfold classify_get
  rw [hw]
  dsimp only
  have hfil : (e0 :: es).filter (fun e => decide (e.putAckTs ≤ getStart)) = [] := by
    rw [List.filter_eq_nil_iff]
    intro e he
    have := (hov e he).1
    simp
    omega
  rw [hfil]
  dsimp only [maxByPutStart, List.foldl_nil]
  have hmem := minByPutStart_mem e0 es
  have := (hov _ hmem).2
  rw [if_neg (by omega)]

theorem classify_get_rbws (records : List Checker.OpRecord) (key : String)
    (version : Nat) (value : TransDb.ByteStr) (getStart getAck : Nat)
    (e0 : PutEntry) (es : List PutEntry)
    (hw : writeIndexGet records key version = e0 :: es)
    (hga : getStart ≤ getAck)
    (hwf : ∀ e ∈ e0 :: es, e.putStartTs ≤ e.putAckTs)
    (hlate : ∀ e ∈ e0 :: es, getAck < e.putStartTs) :
    classify_get records key version value getStart getAck =
      some (.readBeforeWriteStart (minByPutStart e0 es).putStartTs getAck) := by
  unfold classify_get
  rw [hw]
  dsimp only
  have hfil : (e0 :: es).filter (fun e => decide (e.putAckTs ≤ getStart)) = [] := by
    rw [List.filter_eq_nil_iff]
    intro e he
    have h1 := hwf e he
    have h2 := hlate e he
    simp
    omega
  rw [hfil]
  dsimp only [maxByPutStart, List.foldl_nil]
  have hmem := minByPutStart_mem e0 es
  have := hlate _ hmem
  rw [if_pos (by omega)]

end Checker

/-! ## Claims -/

/-- Requests and resulting state for the concrete run instantiating C1. -/
def c1Reqs : List TransDb.Request := [.put "a" ⟨none, some "T"⟩ [1] 0]

/-- The state after `c1Reqs` from the initial state. -/
def c1Db : TransDb.DbState :=
  ⟨[("a", ⟨some [1], 1, none⟩)], [("T", ⟨.put, "a", 200, some 1, 0⟩)], 1⟩

/-- C1: every successful mutation (a step that advances `next_version`) is
assigned version `next_version + 1` and answers `200` with that version as its
`ETag`; over any run the collected assigned versions are exactly the
consecutive range above the starting counter, hence strictly increasing and
pairwise distinct across all keys. -/
theorem c1_global_version_counter (role : TransDb.NodeRole)
    (db db' : TransDb.DbState) (reqs : List TransDb.Request) (vs : List Nat)
    (h : TransDb.execV role db reqs = some (db', vs)) :
    db'.nextVersion = db.nextVersion + vs.length ∧
    vs = List.range' (db.nextVersion + 1) vs.length ∧
    vs.Pairwise (· < ·) ∧
    (∀ (db0 : TransDb.DbState) (req : TransDb.Request) (resp : TransDb.Response)
       (db1 : TransDb.DbState),
      TransDb.step role db0 req = some (resp, db1) →
      db1.nextVersion ≠ db0.nextVersion →
      db1.nextVersion = db0.nextVersion + 1 ∧ resp.status = 200 ∧
        resp.etag = some (db0.nextVersion + 1)) := by
  obtain ⟨h1, h2⟩ := TransDb.execV_version role reqs db db' vs h
  refine ⟨h1, h2, ?_, ?_⟩
  · rw [h2]; exact TransDb.range'_pairwise_lt _ _
  · intro db0 req resp db1 hstep hne
    rcases TransDb.step_version role db0 req resp db1 hstep with hsame | hinc
    · exact absurd hsame hne
    · exact hinc

/-- Witness for C1 at the one-request run `c1Reqs`. -/
theorem c1_global_version_counter_witness :
    c1Db.nextVersion = TransDb.initDb.nextVersion + ([1] : List Nat).length :=
  (c1_global_version_counter .primary TransDb.initDb c1Db c1Reqs [1] (by decide)).1

/-- C3 (code bug): `Client::delete` returns `Result<()>`: it maps both a `200`
carrying `ETag "7"` and a `204` to the same `Ok(())`, discarding the version,
while the behavior the spec and the repository's own unit tests and stress
worker describe (`specDelete`) distinguishes them as `Some 7` versus `None`. -/
theorem c3_client_delete_returns_unit :
    Client.clientDelete "my_key" ⟨200, some "\"7\"", none, [], none⟩ = Except.ok () ∧
    Client.clientDelete "my_key" ⟨204, none, none, [], none⟩ = Except.ok () ∧
    Client.specDelete "my_key" ⟨200, some "\"7\"", none, [], none⟩ = Except.ok (some 7) ∧
    Client.specDelete "my_key" ⟨204, none, none, [], none⟩ = Except.ok none :=
  ⟨rfl, rfl, rfl, rfl⟩

/-- The history of `unit_history.rs::test_stale_when_delete_acks_before_get_starts`:
PUT v1 over 0..2, DELETE v2 over 1..3, GET v1 over 4..5. -/
def c6FailingHistory : List Checker.OpRecord :=
  [⟨0, 2, "k", .put, .putOk 1 [104, 101, 108, 108, 111]⟩,
   ⟨1, 3, "k", .delete, .deleteOk 2⟩,
   ⟨4, 5, "k", .get, .getOk 1 [104, 101, 108, 108, 111]⟩]

/-- C6 (code bug): on `c6FailingHistory` the tombstone-writing DELETE v2 was
acked (3) before the GET started (4), so the claim (and the repository's own
unit test) require one `StaleDataReturned` with `latest_known_version = 2`;
the checker emits nothing: `latest_known_version` scans only `PutOk` records,
and the delete path needs `del_start ≥ put_ack`, which fails here (1 < 2). -/
theorem c6_checker_misses_newer_delete :
    Checker.check_correctness c6FailingHistory = [] ∧
    Checker.latest_known_version c6FailingHistory "k" 1 4 = none ∧
    Checker.superseding_delete c6FailingHistory "k" 2 4 = false := by
  decide

/-- C7 counterexample: the unique write producing `("k", 1)` is a
tombstone-writing DELETE over 0..3 that overlaps the GET over 1..2, so the
claim requires no violation; the checker's write index covers only PUTs, and
it emits `VersionNotFound`. -/
theorem c7_overlap_counterexample :
    Checker.check_correctness
      [⟨0, 3, "k", .delete, .deleteOk 1⟩, ⟨1, 2, "k", .get, .getOk 1 [120]⟩] =
      [⟨"k", 1, .versionNotFound [120]⟩] := by
  decide

/-- C7 (amended): the write index is built over PUTs only — a `GetOk` at a
version no PUT produced is classified `VersionNotFound` (even when a DELETE
produced it and overlaps the GET); when the PUTs producing `(key, version)`
all overlap the GET (none acked at or before its start, none started after
its ack), the checker emits no violation for that GET. -/
theorem c7_overlap_no_violation :
    (∀ (records : List Checker.OpRecord) (key : String) (version : Nat)
       (value : TransDb.ByteStr) (getStart getAck : Nat),
        Checker.writeIndexGet records key version = [] →
        Checker.classify_get records key version value getStart getAck =
          some (.versionNotFound value)) ∧
    (∀ (records : List Checker.OpRecord) (key : String) (version : Nat)
       (value : TransDb.ByteStr) (getStart getAck : Nat)
       (e0 : Checker.PutEntry) (es : List Checker.PutEntry),
        Checker.writeIndexGet records key version = e0 :: es →
        (∀ e ∈ e0 :: es, getStart < e.putAckTs ∧ e.putStartTs ≤ getAck) →
        Checker.classify_get records key version value getStart getAck = none) := by
  constructor
  · intro records key version value getStart getAck hw
    unfold Checker.classify_get
    rw [hw]
  · intro records key version value getStart getAck e0 es hw hov
    exact Checker.classify_get_overlap records key version value getStart getAck
      e0 es hw hov

/-- A single PUT over 1..3 overlapping a GET over 0..2. -/
def c7OverlapHistory : List Checker.OpRecord := [⟨1, 3, "k", .put, .putOk 1 [97]⟩]

/-- Witness for C7 at `c7OverlapHistory`. -/
theorem c7_overlap_no_violation_witness :
    Checker.classify_get c7OverlapHistory "k" 1 [97] 0 2 = none :=
  c7_overlap_no_violation.2 c7OverlapHistory "k" 1 [97] 0 2 ⟨[97], 1, 3⟩ []
    (by decide) (by decide)

/-- C8 counterexample: the only write producing `("k", 1)` is a DELETE that
started (2) after the GET was fully acked (1); the claim requires one
`ReadBeforeWriteStart`, but the checker (whose index covers only PUTs) emits
`VersionNotFound` instead. -/
theorem c8_rbws_counterexample :
    Checker.check_correctness
      [⟨2, 3, "k", .delete, .deleteOk 1⟩, ⟨0, 1, "k", .get, .getOk 1 [97]⟩] =
      [⟨"k", 1, .versionNotFound [97]⟩] := by
  decide

/-- The literal S6 history: PUT(k,1,"a") over t2..t3 and GET(k,1,"a") over
t0..t1 with t0 < t1 < t2 < t3. -/
def c8S6History : List Checker.OpRecord :=
  [⟨2, 3, "k", .put, .putOk 1 [97]⟩, ⟨0, 1, "k", .get, .getOk 1 [97]⟩]

/-- C8 (amended): in any well-formed history where at least one PUT produced
`(key, version)` and every such PUT started only after the GET was fully
acked, the GET is classified `ReadBeforeWriteStart` (with the earliest PUT
start); in particular the literal S6 history yields exactly one
`ReadBeforeWriteStart` violation. -/
theorem c8_read_before_write_start :
    (∀ (records : List Checker.OpRecord) (key : String) (version : Nat)
       (value : TransDb.ByteStr) (getStart getAck : Nat)
       (e0 : Checker.PutEntry) (es : List Checker.PutEntry),
        Checker.writeIndexGet records key version = e0 :: es →
        getStart ≤ getAck →
        (∀ e ∈ e0 :: es, e.putStartTs ≤ e.putAckTs) →
        (∀ e ∈ e0 :: es, getAck < e.putStartTs) →
        Checker.classify_get records key version value getStart getAck =
          some (.readBeforeWriteStart
            (Checker.minByPutStart e0 es).putStartTs getAck)) ∧
    Checker.check_correctness c8S6History =
      [⟨"k", 1, .readBeforeWriteStart 2 1⟩] := by
  constructor
  · intro records key version value getStart getAck e0 es hw hga hwf hlate
    exact Checker.classify_get_rbws records key version value getStart getAck
      e0 es hw hga hwf hlate
  · decide

/-- Witness for C8's general part at the S6 history. -/
theorem c8_read_before_write_start_witness :
    Checker.classify_get c8S6History "k" 1 [97] 0 1 =
      some (.readBeforeWriteStart
        (Checker.minByPutStart ⟨[97], 2, 3⟩ []).putStartTs 1) :=
  c8_read_before_write_start.1 c8S6History "k" 1 [97] 0 1 ⟨[97], 2, 3⟩ []
    (by decide) (by decide) (by decide) (by decide)

/-- C2 (amended): once token `T` is recorded by a successful PUT on key `k`,
any further PUT to `k` carrying `Idempotency-Key: T` that passes the preamble
(body within the size limit, `X-TTL` absent or parseable) replays: it returns
the identical response — `200` with the first PUT's `ETag` — and leaves the
whole `DbState` unchanged.  Stated both for the state immediately after the
recording PUT (first conjunct, response literally equal to the first PUT's)
and for any state whose cache maps `T` to a `(PUT, k)` record (second
conjunct). -/
theorem c2_put_replay :
    (∀ (db0 : TransDb.DbState) (k : String) (h1 hs : TransDb.ReqHeaders)
       (b1 b2 : TransDb.ByteStr) (t1 t2 : Nat) (T : String)
       (r1 : TransDb.Response) (db1 : TransDb.DbState),
        h1.idempotencyKey = some T →
        TransDb.alistGet db0.idempotencyCache T = none →
        TransDb.handle_put .primary k h1 b1 db0 t1 = (r1, db1) →
        r1.status = 200 →
        hs.idempotencyKey = some T →
        ¬ b2.length > TransDb.MAX_VALUE_SIZE →
        (∀ s, hs.xTtl = some s → (TransDb.parseU64 s).isSome = true) →
        TransDb.handle_put .primary k hs b2 db1 t2 = (r1, db1)) ∧
    (∀ (db : TransDb.DbState) (k : String) (rec : TransDb.IdempotencyRecord)
       (T : String) (hs : TransDb.ReqHeaders) (b2 : TransDb.ByteStr) (t2 : Nat),
        TransDb.alistGet db.idempotencyCache T = some rec →
        rec.method = TransDb.HttpMethod.put →
        rec.keyPath = k →
        hs.idempotencyKey = some T →
        ¬ k.utf8ByteSize > TransDb.MAX_KEY_SIZE →
        ¬ b2.length > TransDb.MAX_VALUE_SIZE →
        (∀ s, hs.xTtl = some s → (TransDb.parseU64 s).isSome = true) →
        TransDb.handle_put .primary k hs b2 db t2 =
          (⟨200, rec.etag, false, .empty⟩, db)) := by
  constructor
  · intro db0 k h1 hs b1 b2 t1 t2 T r1 db1 htok hfresh hput hok htok2 hb2 httl2
    obtain ⟨hksize, hr1, hcache⟩ :=
      TransDb.handle_put_fresh_success .primary k h1 b1 db0 t1 r1 db1 T htok
        hfresh hput hok
    have hrec : TransDb.alistGet db1.idempotencyCache T =
        some ⟨.put, k, 200, some (db0.nextVersion + 1), t1⟩ := by
      rw [hcache]; exact TransDb.alistGet_insert_self _ _ _
    have hrepl := TransDb.put_replay_general db1 k _ T hs b2 t2 hrec rfl rfl
      htok2 hksize hb2 httl2
    rw [hrepl, hr1]
  · intro db k rec T hs b2 t2 hrec hm hk htok2 hksize hb2 httl2
    exact TransDb.put_replay_general db k rec T hs b2 t2 hrec hm hk htok2
      hksize hb2 httl2

/-- C2 counterexample: after a successful PUT on `"k"` records token `"T"`, a
further PUT to `"k"` carrying `Idempotency-Key: T` but an unparseable
`X-TTL` returns `400`, not `200` — the preamble fires before the replay
lookup, refuting the claim's unconditional "any further PUT". -/
theorem c2_put_replay_counterexample :
    (TransDb.handle_put .primary "k" ⟨none, some "T"⟩ [1] TransDb.initDb 0).1.status
        = 200 ∧
    TransDb.alistGet
        (TransDb.handle_put .primary "k" ⟨none, some "T"⟩ [1]
          TransDb.initDb 0).2.idempotencyCache "T" =
      some ⟨.put, "k", 200, some 1, 0⟩ ∧
    (TransDb.handle_put .primary "k" ⟨some "oops", some "T"⟩ [1]
        (TransDb.handle_put .primary "k" ⟨none, some "T"⟩ [1]
          TransDb.initDb 0).2 1).1 =
      TransDb.error_response 400 "X-TTL must be a non-negative integer" := by
  decide

/-- Witness for C2's second conjunct: a replay against a concrete state whose
cache holds `("T", (PUT, "k", ETag 5))`. -/
theorem c2_put_replay_witness :
    TransDb.handle_put .primary "k" ⟨none, some "T"⟩ [2] 
        ⟨[("k", ⟨some [1], 5, none⟩)], [("T", ⟨.put, "k", 200, some 5, 0⟩)], 5⟩ 9 =
      (⟨200, some 5, false, .empty⟩,
        ⟨[("k", ⟨some [1], 5, none⟩)], [("T", ⟨.put, "k", 200, some 5, 0⟩)], 5⟩) :=
  c2_put_replay.2 ⟨[("k", ⟨some [1], 5, none⟩)], [("T", ⟨.put, "k", 200, some 5, 0⟩)], 5⟩
    "k" ⟨.put, "k", 200, some 5, 0⟩ "T" ⟨none, some "T"⟩ [2] 9
    (by decide) rfl rfl rfl (by decide) (by decide) (by simp)

/-- C4: a fresh-token DELETE on an absent or tombstoned key answers `204`,
records nothing and changes no state; on a live key it increments the counter
to `v = next_version + 1`, replaces the entry with a tombstone of version `v`
expiring at `now + TOMBSTONE_TTL_SECS` (= 3600), records
`(DELETE, key, 200, ETag v)` under the token, and answers `200` with
`ETag v`. -/
theorem c4_delete_fresh_token (db : TransDb.DbState) (k : String)
    (headers : TransDb.ReqHeaders) (T : String) (unixNow instantNow : Nat)
    (htok : headers.idempotencyKey = some T)
    (hfresh : TransDb.alistGet db.idempotencyCache T = none)
    (hksize : ¬ k.utf8ByteSize > TransDb.MAX_KEY_SIZE) :
    TransDb.TOMBSTONE_TTL_SECS = 3600 ∧
    ((TransDb.alistGet db.store k = none ∨
        (∃ e, TransDb.alistGet db.store k = some e ∧ e.value = none)) →
      TransDb.handle_delete .primary k headers db unixNow instantNow =
        some (⟨204, none, false, .empty⟩, db)) ∧
    (∀ (e : TransDb.Entry) (v : TransDb.ByteStr),
      TransDb.alistGet db.store k = some e → e.value = some v →
      TransDb.handle_delete .primary k headers db unixNow instantNow =
        some (⟨200, some (db.nextVersion + 1), false, .empty⟩,
          { store := TransDb.alistInsert db.store k
              ⟨none, db.nextVersion + 1,
                some (unixNow + TransDb.TOMBSTONE_TTL_SECS)⟩
            idempotencyCache := TransDb.alistInsert db.idempotencyCache T
              ⟨.delete, k, 200, some (db.nextVersion + 1), instantNow⟩
            nextVersion := db.nextVersion + 1 })) := by
  refine ⟨rfl, ?_, ?_⟩
  · intro hcase
    unfold TransDb.handle_delete
    rw [if_neg (by simp), if_neg hksize, htok]
    dsimp only
    rw [hfresh]
    dsimp only
    rcases hcase with hnone | ⟨e, he, hv⟩
    · rw [hnone]
    · rw [he]
      dsimp only
      rw [hv]
  · intro e v he hv
    unfold TransDb.handle_delete
    rw [if_neg (by simp), if_neg hksize, htok]
    dsimp only
    rw [hfresh]
    dsimp only
    rw [he]
    dsimp only
    rw [hv]

/-- Witness for C4 at a concrete live entry and a concrete tombstoned key. -/
theorem c4_delete_fresh_token_witness :
    TransDb.handle_delete .primary "k" ⟨none, some "T"⟩
        ⟨[("k", ⟨some [9], 1, none⟩)], [], 1⟩ 10 11 =
      some (⟨200, some 2, false, .empty⟩,
        ⟨[("k", ⟨none, 2, some 3610⟩)],
         [("T", ⟨.delete, "k", 200, some 2, 11⟩)], 2⟩) :=
  (c4_delete_fresh_token ⟨[("k", ⟨some [9], 1, none⟩)], [], 1⟩ "k"
      ⟨none, some "T"⟩ "T" 10 11 rfl rfl (by decide)).2.2
    ⟨some [9], 1, none⟩ [9] rfl rfl

/-- C5: `is_expired` holds iff `expires_at` is set and `now ≥ expires_at`
(the instant equal to `expires_at` already counts), and a GET on a live
entry whose `is_expired` holds still answers `200` with the value bytes and
the version `ETag`, additionally carrying `X-Expired: true`. -/
theorem c5_expired_get :
    (∀ (e : TransDb.Entry) (now : Nat),
        e.is_expired now = true ↔ ∃ ts, e.expiresAt = some ts ∧ ts ≤ now) ∧
    (∀ (e : TransDb.Entry) (ts : Nat),
        e.expiresAt = some ts → e.is_expired ts = true) ∧
    (∀ (k : String) (db : TransDb.DbState) (now : Nat) (e : TransDb.Entry)
       (v : TransDb.ByteStr),
        ¬ k.utf8ByteSize > TransDb.MAX_KEY_SIZE →
        TransDb.alistGet db.store k = some e →
        e.value = some v →
        e.is_expired now = true →
        TransDb.handle_get .primary k db now =
          ⟨200, some e.version, true, .bytes v⟩) := by
  refine ⟨?_, ?_, ?_⟩
  · intro e now
    cases he : e.expiresAt with
    | none => simp [TransDb.Entry.is_expired, he]
    | some ts => simp [TransDb.Entry.is_expired, he, ge_iff_le]
  · intro e ts hts
    simp [TransDb.Entry.is_expired, hts]
  · intro k db now e v hksize he hv hexp
    unfold TransDb.handle_get
    rw [if_neg (by simp), if_neg hksize, he]
    dsimp only
    rw [hv]
    dsimp only
    rw [hexp]

/-- Witness for C5: a GET at `now = 7` on an entry expiring exactly at 7. -/
theorem c5_expired_get_witness :
    TransDb.handle_get .primary "k"
        ⟨[("k", ⟨some [5], 3, some 7⟩)], [], 3⟩ 7 =
      ⟨200, some 3, true, .bytes [5]⟩ :=
  c5_expired_get.2.2 "k" ⟨[("k", ⟨some [5], 3, some 7⟩)], [], 3⟩ 7
    ⟨some [5], 3, some 7⟩ [5] (by decide) rfl rfl (by decide)

/-- C9: the PUT preamble fires in the exact order role gate, key size, body
size, `X-TTL` parse, `Idempotency-Key` presence; in particular an oversized
key with no `Idempotency-Key` gets the key-size message and an unparseable
`X-TTL` with no `Idempotency-Key` gets the `X-TTL` message. -/
theorem c9_put_preamble_order :
    (∀ (k : String) (hs : TransDb.ReqHeaders) (b : TransDb.ByteStr)
       (db : TransDb.DbState) (t : Nat),
        TransDb.handle_put .replica k hs b db t =
          (TransDb.error_response 405 "Replica does not accept key operations",
            db)) ∧
    (∀ (k : String) (hs : TransDb.ReqHeaders) (b : TransDb.ByteStr)
       (db : TransDb.DbState) (t : Nat),
        k.utf8ByteSize > TransDb.MAX_KEY_SIZE →
        TransDb.handle_put .primary k hs b db t =
          (TransDb.error_response 400
            "Key exceeds maximum size of 1024 bytes", db)) ∧
    (∀ (k : String) (hs : TransDb.ReqHeaders) (b : TransDb.ByteStr)
       (db : TransDb.DbState) (t : Nat),
        ¬ k.utf8ByteSize > TransDb.MAX_KEY_SIZE →
        b.length > TransDb.MAX_VALUE_SIZE →
        TransDb.handle_put .primary k hs b db t =
          (TransDb.error_response 400
            "Value exceeds maximum size of 4194304 bytes", db)) ∧
    (∀ (k : String) (hs : TransDb.ReqHeaders) (b : TransDb.ByteStr)
       (db : TransDb.DbState) (t : Nat) (s : String),
        ¬ k.utf8ByteSize > TransDb.MAX_KEY_SIZE →
        ¬ b.length > TransDb.MAX_VALUE_SIZE →
        hs.xTtl = some s → TransDb.parseU64 s = none →
        TransDb.handle_put .primary k hs b db t =
          (TransDb.error_response 400 "X-TTL must be a non-negative integer",
            db)) ∧
    (∀ (k : String) (hs : TransDb.ReqHeaders) (b : TransDb.ByteStr)
       (db : TransDb.DbState) (t : Nat),
        ¬ k.utf8ByteSize > TransDb.MAX_KEY_SIZE →
        ¬ b.length > TransDb.MAX_VALUE_SIZE →
        hs.xTtl = none → hs.idempotencyKey = none →
        TransDb.handle_put .primary k hs b db t =
          (TransDb.error_response 400 "Idempotency-Key header is required",
            db)) ∧
    (∀ (k : String) (hs : TransDb.ReqHeaders) (b : TransDb.ByteStr)
       (db : TransDb.DbState) (t : Nat) (s : String) (ts : Nat),
        ¬ k.utf8ByteSize > TransDb.MAX_KEY_SIZE →
        ¬ b.length > TransDb.MAX_VALUE_SIZE →
        hs.xTtl = some s → TransDb.parseU64 s = some ts →
        hs.idempotencyKey = none →
        TransDb.handle_put .primary k hs b db t =
          (TransDb.error_response 400 "Idempotency-Key header is required",
            db)) := by
  refine ⟨?_, ?_, ?_, ?_, ?_, ?_⟩
  · intro k hs b db t
    unfold TransDb.handle_put
    rw [if_pos rfl]
  · intro k hs b db t hk
    unfold TransDb.handle_put
    rw [if_neg (by simp), if_pos hk]
    have hmsg : "Key exceeds maximum size of " ++ toString TransDb.MAX_KEY_SIZE
        ++ " bytes" = "Key exceeds maximum size of 1024 bytes" := by decide
    rw [hmsg]
  · intro k hs b db t hk hb
    unfold TransDb.handle_put
    rw [if_neg (by simp), if_neg hk, if_pos hb]
    have hmsg : "Value exceeds maximum size of "
        ++ toString TransDb.MAX_VALUE_SIZE ++ " bytes"
        = "Value exceeds maximum size of 4194304 bytes" := by decide
    rw [hmsg]
  · intro k hs b db t s hk hb hx hp
    unfold TransDb.handle_put
    rw [if_neg (by simp), if_neg hk, if_neg hb, hx]
    dsimp only
    rw [hp]
  · intro k hs b db t hk hb hx hik
    unfold TransDb.handle_put TransDb.handle_put_afterTtl
    rw [if_neg (by simp), if_neg hk, if_neg hb, hx]
    dsimp only
    rw [hik]
  · intro k hs b db t s ts hk hb hx hp hik
    unfold TransDb.handle_put TransDb.handle_put_afterTtl
    rw [if_neg (by simp), if_neg hk, if_neg hb, hx]
    dsimp only
    rw [hp]
    dsimp only
    rw [hik]

/-- A key one byte over `MAX_KEY_SIZE`. -/
def longKey1025 : String := ⟨List.replicate 1025 'a'⟩

set_option maxRecDepth 40000 in
/-- Witness for C9's two pinned particulars: oversized key with missing
`Idempotency-Key` gets the key-size message; unparseable `X-TTL` with
missing `Idempotency-Key` gets the `X-TTL` message. -/
theorem c9_put_preamble_order_witness :
    TransDb.handle_put .primary longKey1025 ⟨none, none⟩ [] TransDb.initDb 0 =
      (TransDb.error_response 400 "Key exceeds maximum size of 1024 bytes",
        TransDb.initDb) ∧
    TransDb.handle_put .primary "k" ⟨some "x", none⟩ [] TransDb.initDb 0 =
      (TransDb.error_response 400 "X-TTL must be a non-negative integer",
        TransDb.initDb) :=
  ⟨c9_put_preamble_order.2.1 longKey1025 ⟨none, none⟩ [] TransDb.initDb 0
      (by decide),
   c9_put_preamble_order.2.2.2.1 "k" ⟨some "x", none⟩ [] TransDb.initDb 0 "x"
      (by decide) (by decide) rfl (by decide)⟩

/-- Requests for the concrete run instantiating C10. -/
def c10Reqs : List TransDb.Request :=
  [.put "k" ⟨none, some "T"⟩ [9] 0, .del "k" ⟨none, some "U"⟩ 10 11]

/-- The state after `c10Reqs` from the initial state. -/
def c10Db : TransDb.DbState :=
  ⟨[("k", ⟨none, 2, some 3610⟩)],
   [("U", ⟨.delete, "k", 200, some 2, 11⟩), ("T", ⟨.put, "k", 200, some 1, 0⟩)],
   2⟩

/-- C10: in every reachable state each cached `IdempotencyRecord` has
`status_code = 200` and a present `ETag`; consequently `handle_delete` never
hits the `unwrap` panic, and a DELETE replay whose record matches
`(DELETE, key)` always answers `200` with that `ETag` — never the `204`
replay the spec describes for no-op DELETEs, which are never recorded. -/
theorem c10_delete_replay_safe (role : TransDb.NodeRole)
    (reqs : List TransDb.Request) (db' : TransDb.DbState) (vs : List Nat)
    (h : TransDb.execV role TransDb.initDb reqs = some (db', vs)) :
    (∀ (tok : String) (rec : TransDb.IdempotencyRecord),
        TransDb.alistGet db'.idempotencyCache tok = some rec →
        rec.statusCode = 200 ∧ rec.etag.isSome = true) ∧
    (∀ (key : String) (headers : TransDb.ReqHeaders) (unixNow instantNow : Nat),
        TransDb.handle_delete role key headers db' unixNow instantNow ≠ none) ∧
    (∀ (tok : String) (rec : TransDb.IdempotencyRecord),
        TransDb.alistGet db'.idempotencyCache tok = some rec →
        rec.method = TransDb.HttpMethod.delete →
        TransDb.verify_and_build_cached_delete rec rec.keyPath =
          some ⟨200, rec.etag, false, .empty⟩ ∧ rec.etag.isSome = true) := by
  have hOK : TransDb.cacheOK db' :=
    TransDb.execV_cacheOK role reqs TransDb.initDb db' vs h (by decide)
  refine ⟨?_, ?_, ?_⟩
  · intro tok rec hrec
    obtain ⟨p, hp, hpv⟩ := TransDb.alistGet_mem hrec
    have hgood := hOK p hp
    rw [hpv] at hgood
    exact hgood
  · intro key headers unixNow instantNow
    exact TransDb.handle_delete_ne_none role key headers db' unixNow instantNow
      hOK
  · intro tok rec hrec hm
    obtain ⟨p, hp, hpv⟩ := TransDb.alistGet_mem hrec
    have hgood := (hOK p hp).2
    rw [hpv] at hgood
    obtain ⟨v, hv⟩ := Option.isSome_iff_exists.mp hgood
    refine ⟨?_, hgood⟩
    unfold TransDb.verify_and_build_cached_delete
    rw [if_neg (by simp [hm]), hv]
    rfl

/-- Witness for C10 at the concrete run `c10Reqs`: the DELETE record cached
under `"U"` replays as `200` with `ETag 2`. -/
theorem c10_delete_replay_safe_witness :
    TransDb.verify_and_build_cached_delete
        ⟨.delete, "k", 200, some 2, 11⟩
        (⟨TransDb.HttpMethod.delete, "k", 200, some 2, 11⟩ :
          TransDb.IdempotencyRecord).keyPath =
      some ⟨200, some 2, false, .empty⟩ ∧
    (some 2 : Option Nat).isSome = true :=
  (c10_delete_replay_safe .primary c10Reqs c10Db [1, 2] (by decide)).2.2 "U"
    ⟨.delete, "k", 200, some 2, 11⟩ (by decide) rfl
